import Mathlib

/-!
Verification of the MPTT (Modified Preorder Tree Traversal) tree-maintenance
engine of `django-mptt` (files `mptt/signals.py` and `mptt/models.py`) against
its natural-language specification.

A node row carries `pk`, a `parent` foreign key, and the four derived tree
fields `lft`, `rght`, `tree_id`, `level`.  The backing store is modelled as a
list of rows; the SQL bulk updates of `signals.py` become row-wise maps over
that list.  Python integers are unbounded, so all numeric fields are `Int`.
The two exceptions a save can raise in the in-tree re-parenting branch are
`InvalidParent` (signals.py line 76) and Python's `UnboundLocalError` (the
local `level_change` is only assigned inside the `if` at lines 82-97 but is
read unconditionally at line 143); both are modelled in `MPTTError`.
-/

/-- One stored row of the tree table: primary key, parent foreign key
(`None` for roots), and the four MPTT fields `lft`, `rght`, `tree_id`,
`level` (attribute names as in `mptt.models.treeify`). -/
structure Node where
  pk : Int
  parent : Option Int
  lft : Int
  rght : Int
  tree_id : Int
  level : Int
deriving DecidableEq, Repr

/-- The backing store: the rows of the single tree table. -/
abbrev Store := List Node

/-- Row lookup by primary key (`instance._default_manager.get(pk=...)`). -/
def getNode (s : Store) (k : Int) : Option Node :=
  s.find? (fun m => decide (m.pk = k))

/-- Errors the engine can raise while re-parenting: the domain error
`InvalidParent` (signals.py line 76) and the `UnboundLocalError` Python
raises at signals.py line 143 when `level_change` was never assigned. -/
inductive MPTTError where
  | invalidParent
  | unboundLocal
deriving DecidableEq, Repr

/-- Modelled from the spec: `create_space(width, target_right, tree_id)` of
the tree manager (`mptt/managers.py`, absent from the sources; spec 4.1):
adds `width` to every `lft` and `rght` value strictly greater than
`target_right` within `tree_id`.  Row-wise form of the bulk update. -/
def create_space_row (width target_right tree_id : Int) (m : Node) : Node :=
  if m.tree_id = tree_id then
    { m with
      lft := if m.lft > target_right then m.lft + width else m.lft,
      rght := if m.rght > target_right then m.rght + width else m.rght }
  else m

/-- Modelled from the spec: `create_space` applied to the whole store. -/
def create_space (width target_right tree_id : Int) (s : Store) : Store :=
  s.map (create_space_row width target_right tree_id)

/-- Modelled from the spec: `close_gap(width, target_right, tree_id)` of the
tree manager (`mptt/managers.py`, absent from the sources; spec 4.1):
subtracts `width` from every `lft` and `rght` value strictly greater than
`target_right` within `tree_id`.  Row-wise form of the bulk update. -/
def close_gap_row (width target_right tree_id : Int) (m : Node) : Node :=
  if m.tree_id = tree_id then
    { m with
      lft := if m.lft > target_right then m.lft - width else m.lft,
      rght := if m.rght > target_right then m.rght - width else m.rght }
  else m

/-- Modelled from the spec: `close_gap` applied to the whole store. -/
def close_gap (width target_right tree_id : Int) (s : Store) : Store :=
  s.map (close_gap_row width target_right tree_id)

/-- Modelled from the spec: `get_next_tree_id()` of the tree manager
(`mptt/managers.py`, absent from the sources; spec 4.5): an integer strictly
greater than any `tree_id` currently in use (`max + 1`, `1` when empty). -/
def get_next_tree_id (s : Store) : Int :=
  (s.foldr (fun m acc => max m.tree_id acc) 0) + 1

/-- Row-wise form of `level_change_query` (signals.py lines 84-97):
`UPDATE ... SET level = level - level_change WHERE lft >= node_left AND
lft <= node_right AND tree_id = tree_id`. -/
def level_change_query_row (level_change node_left node_right tree_id : Int)
    (m : Node) : Node :=
  if node_left ≤ m.lft ∧ m.lft ≤ node_right ∧ m.tree_id = tree_id then
    { m with level := m.level - level_change }
  else m

/-- `level_change_query` applied to the whole store. -/
def level_change_query (level_change node_left node_right tree_id : Int)
    (s : Store) : Store :=
  s.map (level_change_query_row level_change node_left node_right tree_id)

/-- Row-wise form of `move_subtree_query` (signals.py lines 99-136): a
two-case conditional update of `lft` and `rght`, scoped to one `tree_id`;
the first `WHEN` (the moving subtree's own range) takes precedence. -/
def move_subtree_query_row (node_left node_right left_right_change
    left_boundary right_boundary gap_size tree_id : Int) (m : Node) : Node :=
  if m.tree_id = tree_id then
    { m with
      lft :=
        if node_left ≤ m.lft ∧ m.lft ≤ node_right then m.lft + left_right_change
        else if left_boundary ≤ m.lft ∧ m.lft ≤ right_boundary then m.lft + gap_size
        else m.lft,
      rght :=
        if node_left ≤ m.rght ∧ m.rght ≤ node_right then m.rght + left_right_change
        else if left_boundary ≤ m.rght ∧ m.rght ≤ right_boundary then m.rght + gap_size
        else m.rght }
  else m

/-- `move_subtree_query` applied to the whole store. -/
def move_subtree_query (node_left node_right left_right_change
    left_boundary right_boundary gap_size tree_id : Int) (s : Store) : Store :=
  s.map (move_subtree_query_row node_left node_right left_right_change
    left_boundary right_boundary gap_size tree_id)

/-- The in-tree re-parenting branch of `_pre_save` (signals.py lines 69-143):
validity check, optional level rewrite, combined subtree/gap shift, then the
instance's own in-memory fields.  `p` is the new parent object, `old_parent`
the fetched stored parent.  Returns the store after the executed bulk
updates together with either the updated instance or the raised error
(`invalidParent` before any update; `unboundLocal` when the levels were
equal, raised at line 143 after the bulk update already ran). -/
def in_tree_move (inst p old_parent : Node) (s : Store) :
    Store × Except MPTTError Node :=
  if inst.lft ≤ p.lft ∧ p.lft ≤ inst.rght then
    (s, Except.error MPTTError.invalidParent)
  else
    let tree_id := inst.tree_id
    let node_left := inst.lft
    let node_right := inst.rght
    let slc : Store × Option Int :=
      if p.level ≠ old_parent.level then
        (level_change_query (inst.level - p.level - 1) node_left node_right tree_id s,
         some (inst.level - p.level - 1))
      else (s, none)
    let parent_right := p.rght
    let subtree_width := node_right - node_left + 1
    let new_left := parent_right - subtree_width
    let new_right := parent_right - 1
    let left_boundary := min node_left new_left
    let right_boundary := max node_right new_right
    let left_right_change := new_left - node_left
    let gap_size := if left_right_change > 0 then -subtree_width else subtree_width
    let s2 := move_subtree_query node_left node_right left_right_change
      left_boundary right_boundary gap_size tree_id slc.1
    match slc.2 with
    | some level_change =>
        (s2, Except.ok { inst with lft := new_left, rght := new_right,
                                   level := inst.level - level_change })
    | none => (s2, Except.error MPTTError.unboundLocal)

/-- The new-instance branch of `_pre_save` (signals.py lines 31-47): child
case opens space at the parent's right edge, root case starts a fresh tree.
Returns the store after `create_space` and the instance with its tree
fields set. -/
def pre_save_new (parent : Option Node) (inst : Node) (s : Store) :
    Store × Node :=
  match parent with
  | some p =>
      let target_right := p.rght - 1
      let tid := p.tree_id
      (create_space 2 target_right tid s,
       { inst with lft := target_right + 1, rght := target_right + 2,
                   tree_id := tid, level := p.level + 1 })
  | none =>
      (s, { inst with lft := 1, rght := 2, tree_id := get_next_tree_id s,
                      level := 0 })

/-- Modelled from the spec: `make_root_node` of the tree manager
(`mptt/managers.py`, absent from the sources; spec 4.4 case 1, detach to
root): allocate a new `tree_id`, rebase the descendants to the new
root-relative frame, close the gap in the original tree. -/
def make_root_node (inst : Node) (s : Store) : Store × Except MPTTError Node :=
  let new_tid := get_next_tree_id s
  let width := inst.rght - inst.lft + 1
  let s1 := s.map (fun m =>
    if m.tree_id = inst.tree_id ∧ inst.lft < m.lft ∧ m.lft < inst.rght then
      { m with tree_id := new_tid, lft := m.lft + (1 - inst.lft),
               rght := m.rght + (1 - inst.lft), level := m.level - inst.level }
    else m)
  let s2 := close_gap width inst.rght inst.tree_id s1
  (s2, Except.ok { inst with lft := 1, rght := width, tree_id := new_tid,
                             level := 0 })

/-- Modelled from the spec: `make_child_node` of the tree manager
(`mptt/managers.py`, absent from the sources; spec 4.4 case 2, attach from
root): open space in the destination tree and splice the moving tree in,
rebased under the new parent. -/
def make_child_node (inst p : Node) (s : Store) : Store × Except MPTTError Node :=
  let target_right := p.rght - 1
  let width := inst.rght - inst.lft + 1
  let s1 := create_space width target_right p.tree_id s
  let s2 := s1.map (fun m =>
    if m.tree_id = inst.tree_id ∧ inst.lft < m.lft ∧ m.lft < inst.rght then
      { m with tree_id := p.tree_id,
               lft := m.lft + (target_right + 1 - inst.lft),
               rght := m.rght + (target_right + 1 - inst.lft),
               level := m.level + (p.level + 1 - inst.level) }
    else m)
  (s2, Except.ok { inst with lft := target_right + 1,
                             rght := target_right + width,
                             tree_id := p.tree_id, level := p.level + 1 })

/-- Modelled from the spec: `move_to_new_tree` of the tree manager
(`mptt/managers.py`, absent from the sources; spec 4.4 case 3, cross-tree
move): excise the subtree from the source tree and splice it into the
destination tree, levels rebased. -/
def move_to_new_tree (inst p : Node) (s : Store) : Store × Except MPTTError Node :=
  let target_right := p.rght - 1
  let width := inst.rght - inst.lft + 1
  let s1 := create_space width target_right p.tree_id s
  let s2 := s1.map (fun m =>
    if m.tree_id = inst.tree_id ∧ inst.lft < m.lft ∧ m.lft < inst.rght then
      { m with tree_id := p.tree_id,
               lft := m.lft + (target_right + 1 - inst.lft),
               rght := m.rght + (target_right + 1 - inst.lft),
               level := m.level + (p.level + 1 - inst.level) }
    else m)
  let s3 := close_gap width inst.rght inst.tree_id s2
  (s3, Except.ok { inst with lft := target_right + 1,
                             rght := target_right + width,
                             tree_id := p.tree_id, level := p.level + 1 })

/-- The existing-instance branch of `_pre_save` (signals.py lines 48-143):
compare the new parent with the stored one (Django model equality is
primary-key equality) and dispatch into the four re-parenting cases; equal
parents short-circuit with no store change at all. -/
def pre_save_update (inst : Node) (parent old_parent : Option Node)
    (s : Store) : Store × Except MPTTError Node :=
  if parent.map (·.pk) = old_parent.map (·.pk) then (s, Except.ok inst)
  else
    match parent, old_parent with
    | none, _ => make_root_node inst s
    | some p, none => make_child_node inst p s
    | some p, some op =>
        if p.tree_id ≠ inst.tree_id then move_to_new_tree inst p s
        else in_tree_move inst p op s

/-- `_pre_delete` (signals.py lines 151-163): close the gap the node leaves
behind; the row itself is removed afterwards by the backing store. -/
def pre_delete (inst : Node) (s : Store) : Store :=
  close_gap (inst.rght - inst.lft + 1) inst.rght inst.tree_id s

/-- A full deletion: `_pre_delete` followed by the store removing the row. -/
def do_delete (inst : Node) (s : Store) : Store :=
  (pre_delete inst s).filter (fun m => decide (m.pk ≠ inst.pk))

/-- Persisting the saved instance's own row after the pre-save signal ran. -/
def save_row (s : Store) (inst : Node) : Store :=
  s.map (fun m => if m.pk = inst.pk then inst else m)

/-- A full creation: `_pre_save` on a fresh instance with the chosen parent,
then the backing store appends the new row. -/
def do_create (pk : Int) (parent : Option Node) (s : Store) : Store :=
  let inst0 : Node := { pk := pk, parent := parent.map (·.pk), lft := 0,
                        rght := 0, tree_id := 0, level := 0 }
  let r := pre_save_new parent inst0 s
  r.1 ++ [r.2]

/-- Ordering relation used by `order_by('lft')`. -/
def byLftAsc (a b : Node) : Prop := a.lft ≤ b.lft

/-- Ordering relation used by `order_by('-lft')`. -/
def byLftDesc (a b : Node) : Prop := b.lft ≤ a.lft

instance : DecidableRel byLftAsc := fun a b => inferInstanceAs (Decidable (a.lft ≤ b.lft))

instance : DecidableRel byLftDesc := fun a b => inferInstanceAs (Decidable (b.lft ≤ a.lft))

instance : IsTotal Node byLftAsc := ⟨fun a b => Int.le_total a.lft b.lft⟩

instance : IsTotal Node byLftDesc := ⟨fun a b => Int.le_total b.lft a.lft⟩

instance : IsTrans Node byLftAsc := ⟨fun _ _ _ h h2 => Int.le_trans h h2⟩

instance : IsTrans Node byLftDesc := ⟨fun _ _ _ h h2 => Int.le_trans h2 h⟩

/-- `_get_ancestors` (models.py lines 63-81): empty when the instance's
parent reference is none, otherwise all rows strictly enclosing the
instance's interval in its tree, ordered by `lft` (descending when
`ascending` is true, which puts the immediate parent first). -/
def get_ancestors (inst : Node) (ascending : Bool) (s : Store) : List Node :=
  match inst.parent with
  | none => []
  | some _ =>
      let base := s.filter (fun m =>
        decide (m.lft < inst.lft ∧ m.rght > inst.rght ∧ m.tree_id = inst.tree_id))
      if ascending then base.insertionSort byLftDesc
      else base.insertionSort byLftAsc

/-- `_get_descendants` (models.py lines 88-104): all rows of the same tree
with `lft` strictly between the instance's bounds (inclusively between them
when `include_self`), ordered by `lft` ascending. -/
def get_descendants (inst : Node) (include_self : Bool) (s : Store) : List Node :=
  let base :=
    if include_self then
      s.filter (fun m =>
        decide (m.tree_id = inst.tree_id ∧ inst.lft ≤ m.lft ∧ m.lft ≤ inst.rght))
    else
      s.filter (fun m =>
        decide (m.tree_id = inst.tree_id ∧ m.lft > inst.lft ∧ m.lft < inst.rght))
  base.insertionSort byLftAsc

/-- `_get_descendant_count` (models.py lines 111-116):
`(rght - lft - 1) / 2` with Python 2 floor division. -/
def get_descendant_count (inst : Node) : Int :=
  Int.fdiv (inst.rght - inst.lft - 1) 2

/-!
Concrete runs of the engine.  `demo*` builds, by five creations, the tree
R(1,10){ A(2,3), B(4,9){ C(5,8){ X(6,7) } } } in tree 1 and then re-parents
X from C to A — a leftward in-tree move with differing parent levels, which
completes without error.  `eql*` builds R(1,8){ A(2,5){ X(3,4) }, B(6,7) }
and re-parents X from A to B — an in-tree move between parents of equal
level.
-/

def demo1 : Store := do_create 1 none []

def demo2 : Store := do_create 2 (getNode demo1 1) demo1

def demo3 : Store := do_create 3 (getNode demo2 1) demo2

def demo4 : Store := do_create 4 (getNode demo3 3) demo3

def demo5 : Store := do_create 5 (getNode demo4 4) demo4

/-- The stored row of X in `demo5`. -/
def demoX : Node := { pk := 5, parent := some 4, lft := 6, rght := 7, tree_id := 1, level := 3 }

/-- The stored row of A in `demo5`. -/
def demoA : Node := { pk := 2, parent := some 1, lft := 2, rght := 3, tree_id := 1, level := 1 }

/-- The stored row of C (X's old parent) in `demo5`. -/
def demoC : Node := { pk := 4, parent := some 3, lft := 5, rght := 8, tree_id := 1, level := 2 }

/-- Saving X with its parent reference changed from C to A. -/
def demoMove : Store × Except MPTTError Node :=
  pre_save_update { demoX with parent := some 2 } (some demoA) (some demoC) demo5

/-- X's row as the completed move leaves it. -/
def demoXMoved : Node := { pk := 5, parent := some 2, lft := 1, rght := 2, tree_id := 1, level := 2 }

/-- A's row as the completed move leaves it. -/
def demoAMoved : Node := { pk := 2, parent := some 1, lft := 4, rght := 5, tree_id := 1, level := 1 }

/-- The store after the move's bulk updates and the write of X's own row. -/
def demoFinal : Store :=
  match demoMove.2 with
  | Except.ok i => save_row demoMove.1 i
  | Except.error _ => demoMove.1

def eql1 : Store := do_create 1 none []

def eql2 : Store := do_create 2 (getNode eql1 1) eql1

def eql3 : Store := do_create 3 (getNode eql2 2) eql2

def eql4 : Store := do_create 4 (getNode eql3 1) eql3

/-- The stored row of X in `eql4`. -/
def eqlX : Node := { pk := 3, parent := some 2, lft := 3, rght := 4, tree_id := 1, level := 2 }

/-- The stored row of A (X's old parent) in `eql4`. -/
def eqlA : Node := { pk := 2, parent := some 1, lft := 2, rght := 5, tree_id := 1, level := 1 }

/-- The stored row of B (the new parent, same level as A) in `eql4`. -/
def eqlB : Node := { pk := 4, parent := some 1, lft := 6, rght := 7, tree_id := 1, level := 1 }

/-- Saving X with its parent reference changed from A to B. -/
def eqlMove : Store × Except MPTTError Node :=
  pre_save_update { eqlX with parent := some 4 } (some eqlB) (some eqlA) eql4

/-- C1: after the error-free sequence of five creations and one leftward
in-tree re-parenting recorded in `demoMove`/`demoFinal`, node A's
`descendant_count` is 0 while A has exactly one actual descendant (X, whose
parent reference is A): the invariant-preservation claim fails on the code.
The leftward move leaves X's interval (1,2) outside A's (4,5). -/
theorem c1_invariant_preservation_fails :
    getNode demo5 5 = some demoX ∧
    getNode demo5 2 = some demoA ∧
    getNode demo5 4 = some demoC ∧
    demoMove.2 = Except.ok demoXMoved ∧
    getNode demoFinal 2 = some demoAMoved ∧
    get_descendant_count demoAMoved = 0 ∧
    getNode demoFinal 5 = some demoXMoved ∧
    (demoFinal.filter (fun m => decide (m.parent = some 2))).length = 1 ∧
    get_descendants demoAMoved false demoFinal = [] :=
  ⟨rfl, rfl, rfl, rfl, rfl, rfl, rfl, rfl, rfl⟩

/-- C2: the leftward in-tree move `demoMove` does set
`new_left = new_parent.rght - subtree_width` and
`new_right = new_parent.rght - 1` as the claim states, but the moved node
does not end up a child of the new parent at all: X's new interval (1,2)
lies entirely outside A's updated interval (4,5), so the rightmost-child
property fails for leftward moves. -/
theorem c2_leftward_move_not_rightmost_child :
    demoMove.2 = Except.ok demoXMoved ∧
    demoXMoved.lft = demoA.rght - (demoX.rght - demoX.lft + 1) ∧
    demoXMoved.rght = demoA.rght - 1 ∧
    demoXMoved.lft < demoX.lft ∧
    getNode demoMove.1 2 = some demoAMoved ∧
    ¬(demoAMoved.lft < demoXMoved.lft ∧ demoXMoved.rght < demoAMoved.rght) :=
  ⟨rfl, rfl, rfl, by decide, rfl, by decide⟩

/-- C4: an in-tree re-parenting whose new parent passes the validity check
but has the same level as the old parent does not run to completion: the
code reads the never-assigned local `level_change` (signals.py line 143)
and raises `UnboundLocalError`, modelled as `MPTTError.unboundLocal`. -/
theorem c4_equal_level_move_raises :
    getNode eql4 3 = some eqlX ∧
    getNode eql4 2 = some eqlA ∧
    getNode eql4 4 = some eqlB ∧
    ¬(eqlX.lft ≤ eqlB.lft ∧ eqlB.lft ≤ eqlX.rght) ∧
    eqlB.level = eqlA.level ∧
    eqlB.tree_id = eqlX.tree_id ∧
    eqlMove.2 = Except.error MPTTError.unboundLocal :=
  ⟨rfl, rfl, rfl, by decide, rfl, rfl, rfl⟩

/-- Row-wise characterisation of a bulk update: a map over the store relates
every old row to its image. -/
theorem forall2_map_self {α β : Type} {R : α → β → Prop} {f : α → β}
    {l : List α} (h : ∀ a ∈ l, R a (f a)) : List.Forall₂ R l (l.map f) :=
  List.forall₂_map_right_iff.mpr (List.forall₂_same.mpr h)

/-- The root of the three-node deletion scenario of the spec: R(1,6). -/
def delR : Node := { pk := 1, parent := none, lft := 1, rght := 6, tree_id := 1, level := 0 }

/-- First child of the deletion scenario: C1(2,3), the node deleted. -/
def delC1 : Node := { pk := 2, parent := some 1, lft := 2, rght := 3, tree_id := 1, level := 1 }

/-- Second child of the deletion scenario: C2(4,5). -/
def delC2 : Node := { pk := 3, parent := some 1, lft := 4, rght := 5, tree_id := 1, level := 1 }

/-- C6: deleting a node runs `close_gap(rght - lft + 1, rght, tree_id)`:
rows of other trees are untouched and, within the tree, every `lft`/`rght`
value strictly greater than the node's `rght` drops by the subtree width
while all other fields are kept; concretely, deleting C1(2,3) from
R(1,6), C1(2,3), C2(4,5) leaves exactly R(1,4), C2(2,3). -/
theorem c6_deletion_closes_gap (inst : Node) (s : Store) :
    List.Forall₂ (fun m mNew =>
      (m.tree_id ≠ inst.tree_id → mNew = m) ∧
      (m.tree_id = inst.tree_id →
        mNew.lft = (if m.lft > inst.rght then m.lft - (inst.rght - inst.lft + 1) else m.lft) ∧
        mNew.rght = (if m.rght > inst.rght then m.rght - (inst.rght - inst.lft + 1) else m.rght) ∧
        mNew.pk = m.pk ∧ mNew.parent = m.parent ∧
        mNew.level = m.level ∧ mNew.tree_id = m.tree_id))
      s (pre_delete inst s) ∧
    do_delete delC1 [delR, delC1, delC2] =
      [{ delR with rght := 4 }, { delC2 with lft := 2, rght := 3 }] := by
  constructor
  · unfold pre_delete close_gap
    apply forall2_map_self
    intro m _
    constructor
    · intro hne
      unfold close_gap_row
      rw [if_neg hne]
    · intro heq
      unfold close_gap_row
      rw [if_pos heq]
      exact ⟨rfl, rfl, rfl, rfl, rfl, rfl⟩
  · rfl

/-- C6 witness: the general part of `c6_deletion_closes_gap` evaluated on
the concrete three-node scenario. -/
theorem c6_deletion_closes_gap_witness :
    List.Forall₂ (fun m mNew =>
      (m.tree_id ≠ delC1.tree_id → mNew = m) ∧
      (m.tree_id = delC1.tree_id →
        mNew.lft = (if m.lft > delC1.rght then m.lft - (delC1.rght - delC1.lft + 1) else m.lft) ∧
        mNew.rght = (if m.rght > delC1.rght then m.rght - (delC1.rght - delC1.lft + 1) else m.rght) ∧
        mNew.pk = m.pk ∧ mNew.parent = m.parent ∧
        mNew.level = m.level ∧ mNew.tree_id = m.tree_id))
      [delR, delC1, delC2] (pre_delete delC1 [delR, delC1, delC2]) ∧
    do_delete delC1 [delR, delC1, delC2] =
      [{ delR with rght := 4 }, { delC2 with lft := 2, rght := 3 }] :=
  c6_deletion_closes_gap delC1 [delR, delC1, delC2]

/-- C7: when the saved instance's parent reference has the same primary key
as its stored parent, `_pre_save` short-circuits before every re-parenting
branch: the store and the instance come back unchanged, and writing the
instance's row back (its fields matching its stored row) leaves every row
of the store, the saved node's included, identical. -/
theorem c7_same_parent_noop (inst : Node) (parent old_parent : Option Node)
    (s : Store) (hid : parent.map (·.pk) = old_parent.map (·.pk))
    (hrow : ∀ m ∈ s, m.pk = inst.pk → m = inst) :
    pre_save_update inst parent old_parent s = (s, Except.ok inst) ∧
    save_row s inst = s := by
  constructor
  · unfold pre_save_update
    rw [if_pos hid]
  · unfold save_row
    have h : ∀ m ∈ s, (if m.pk = inst.pk then inst else m) = id m := by
      intro m hm
      by_cases hp : m.pk = inst.pk
      · rw [if_pos hp]
        exact (hrow m hm hp).symm
      · rw [if_neg hp]
        rfl
    rw [List.map_congr_left h, List.map_id]

/-- C7 witness: saving C1 with its parent reference still pointing at R is a
no-op on the three-node store. -/
theorem c7_same_parent_noop_witness :
    pre_save_update delC1 (some delR) (some delR) [delR, delC1, delC2] =
      ([delR, delC1, delC2], Except.ok delC1) ∧
    save_row [delR, delC1, delC2] delC1 = [delR, delC1, delC2] :=
  c7_same_parent_noop delC1 (some delR) (some delR) [delR, delC1, delC2]
    (by decide) (by decide)

/-- Shape of the error/instance component of `in_tree_move` once the
validity check has passed: the move completes exactly when the new and old
parents' levels differ; otherwise line 143 raises `UnboundLocalError`. -/
theorem in_tree_move_snd (inst p op : Node) (s : Store)
    (h : ¬(inst.lft ≤ p.lft ∧ p.lft ≤ inst.rght)) :
    (in_tree_move inst p op s).2 =
      if p.level ≠ op.level then
        Except.ok { inst with lft := p.rght - (inst.rght - inst.lft + 1),
                              rght := p.rght - 1,
                              level := inst.level - (inst.level - p.level - 1) }
      else Except.error MPTTError.unboundLocal := by
  unfold in_tree_move
  rw [if_neg h]
  dsimp only
  by_cases hl : p.level ≠ op.level
  · rw [if_pos hl, if_pos hl]
  · rw [if_neg hl, if_neg hl]

/-- C3: the in-tree branch raises `InvalidParent` precisely when the new
parent's `lft` lies in the moving node's closed interval, and in that case
no bulk update has run: the store is returned unchanged. -/
theorem c3_invalid_parent_check (inst p op : Node) (s : Store) :
    ((in_tree_move inst p op s).2 = Except.error MPTTError.invalidParent ↔
      (inst.lft ≤ p.lft ∧ p.lft ≤ inst.rght)) ∧
    ((inst.lft ≤ p.lft ∧ p.lft ≤ inst.rght) → (in_tree_move inst p op s).1 = s) := by
  by_cases h : inst.lft ≤ p.lft ∧ p.lft ≤ inst.rght
  · have h1 : in_tree_move inst p op s = (s, Except.error MPTTError.invalidParent) := by
      unfold in_tree_move
      rw [if_pos h]
    rw [h1]
    exact ⟨⟨fun _ => h, fun _ => rfl⟩, fun _ => rfl⟩
  · rw [in_tree_move_snd inst p op s h]
    refine ⟨⟨fun habs => ?_, fun hc => absurd hc h⟩, fun hc => absurd hc h⟩
    by_cases hl : p.level ≠ op.level
    · rw [if_pos hl] at habs
      simp at habs
    · rw [if_neg hl] at habs
      simp at habs

/-- C3 witness: re-parenting R(1,6) under its own descendant C1(2,3) raises
`InvalidParent` and leaves the three-node store unchanged. -/
theorem c3_invalid_parent_check_witness :
    (in_tree_move delR delC1 delC2 [delR, delC1, delC2]).2 =
      Except.error MPTTError.invalidParent ∧
    (in_tree_move delR delC1 delC2 [delR, delC1, delC2]).1 = [delR, delC1, delC2] :=
  ⟨(c3_invalid_parent_check delR delC1 delC2 [delR, delC1, delC2]).1.mpr (by decide),
   (c3_invalid_parent_check delR delC1 delC2 [delR, delC1, delC2]).2 (by decide)⟩

/-- A fresh unsaved instance used to witness the creation claim. -/
def newborn : Node := { pk := 4, parent := some 1, lft := 0, rght := 0, tree_id := 0, level := 0 }

/-- C5: creation with no parent sets `lft=1, rght=2, level=0` and a fresh
`tree_id` without touching any stored row; creation under a parent P first
runs `create_space(2, P.rght - 1, P.tree_id)` — adding 2 to every `lft` and
`rght` strictly greater than `P.rght - 1` in P's tree and touching nothing
else — and then sets `lft = r+1, rght = r+2, tree_id = P.tree_id,
level = P.level + 1` for `r = P.rght - 1`, which places the new node as P's
rightmost child: after the rewrite no row of the tree both lies strictly
inside P's enlarged interval and has `lft` at least the new node's. -/
theorem c5_creation_fields (p inst : Node) (s : Store) :
    pre_save_new none inst s =
      (s, { inst with lft := 1, rght := 2, tree_id := get_next_tree_id s, level := 0 }) ∧
    (pre_save_new (some p) inst s).2 =
      { inst with lft := p.rght - 1 + 1, rght := p.rght - 1 + 2,
                  tree_id := p.tree_id, level := p.level + 1 } ∧
    List.Forall₂ (fun m mNew =>
      (m.tree_id ≠ p.tree_id → mNew = m) ∧
      (m.tree_id = p.tree_id →
        mNew.lft = (if m.lft > p.rght - 1 then m.lft + 2 else m.lft) ∧
        mNew.rght = (if m.rght > p.rght - 1 then m.rght + 2 else m.rght) ∧
        mNew.pk = m.pk ∧ mNew.parent = m.parent ∧
        mNew.level = m.level ∧ mNew.tree_id = m.tree_id))
      s (pre_save_new (some p) inst s).1 ∧
    (∀ m ∈ s, m.tree_id = p.tree_id → m.lft < m.rght →
      (create_space_row 2 (p.rght - 1) p.tree_id m).lft < p.rght - 1 + 1 ∨
      ¬(p.lft < (create_space_row 2 (p.rght - 1) p.tree_id m).lft ∧
        (create_space_row 2 (p.rght - 1) p.tree_id m).rght < p.rght + 2)) := by
  refine ⟨rfl, rfl, ?_, ?_⟩
  · apply forall2_map_self
    intro m _
    constructor
    · intro hne
      unfold create_space_row
      rw [if_neg hne]
    · intro heq
      unfold create_space_row
      rw [if_pos heq]
      exact ⟨rfl, rfl, rfl, rfl, rfl, rfl⟩
  · intro m _ htree hlr
    have hrow : create_space_row 2 (p.rght - 1) p.tree_id m =
        { m with lft := if m.lft > p.rght - 1 then m.lft + 2 else m.lft,
                 rght := if m.rght > p.rght - 1 then m.rght + 2 else m.rght } := by
      unfold create_space_row
      rw [if_pos htree]
    rw [hrow]
    dsimp only
    by_cases hl : m.lft > p.rght - 1
    · rw [if_pos hl]
      have hr : m.rght > p.rght - 1 := by omega
      rw [if_pos hr]
      right
      intro hcon
      omega
    · rw [if_neg hl]
      left
      omega

/-- C5 witness: creating a node under R(1,6) in the three-node store. -/
theorem c5_creation_fields_witness :
    pre_save_new none newborn [delR, delC1, delC2] =
      ([delR, delC1, delC2],
       { newborn with lft := 1, rght := 2,
                      tree_id := get_next_tree_id [delR, delC1, delC2], level := 0 }) ∧
    (pre_save_new (some delR) newborn [delR, delC1, delC2]).2 =
      { newborn with lft := delR.rght - 1 + 1, rght := delR.rght - 1 + 2,
                     tree_id := delR.tree_id, level := delR.level + 1 } ∧
    List.Forall₂ (fun m mNew =>
      (m.tree_id ≠ delR.tree_id → mNew = m) ∧
      (m.tree_id = delR.tree_id →
        mNew.lft = (if m.lft > delR.rght - 1 then m.lft + 2 else m.lft) ∧
        mNew.rght = (if m.rght > delR.rght - 1 then m.rght + 2 else m.rght) ∧
        mNew.pk = m.pk ∧ mNew.parent = m.parent ∧
        mNew.level = m.level ∧ mNew.tree_id = m.tree_id))
      [delR, delC1, delC2] (pre_save_new (some delR) newborn [delR, delC1, delC2]).1 ∧
    (∀ m ∈ [delR, delC1, delC2], m.tree_id = delR.tree_id → m.lft < m.rght →
      (create_space_row 2 (delR.rght - 1) delR.tree_id m).lft < delR.rght - 1 + 1 ∨
      ¬(delR.lft < (create_space_row 2 (delR.rght - 1) delR.tree_id m).lft ∧
        (create_space_row 2 (delR.rght - 1) delR.tree_id m).rght < delR.rght + 2)) :=
  c5_creation_fields delR newborn [delR, delC1, delC2]

/-- A node whose parent reference is none has no ancestors, whatever its
stored interval. -/
theorem get_ancestors_parent_none (inst : Node) (asc : Bool) (s : Store)
    (hp : inst.parent = none) : get_ancestors inst asc s = [] := by
  unfold get_ancestors
  rw [hp]

/-- Membership in the ancestors query, for a node with a parent reference:
exactly the rows strictly enclosing the node's interval in its tree. -/
theorem mem_get_ancestors (inst m : Node) (asc : Bool) (s : Store)
    (hp : inst.parent ≠ none) :
    m ∈ get_ancestors inst asc s ↔
      m ∈ s ∧ (m.lft < inst.lft ∧ m.rght > inst.rght ∧ m.tree_id = inst.tree_id) := by
  unfold get_ancestors
  cases hpp : inst.parent with
  | none => exact absurd hpp hp
  | some k =>
      cases asc with
      | false => simp [List.mem_filter]
      | true => simp [List.mem_filter]

/-- Membership in the descendants query (without self): exactly the rows of
the node's tree with `lft` strictly inside the node's interval. -/
theorem mem_get_descendants (inst m : Node) (s : Store) :
    m ∈ get_descendants inst false s ↔
      m ∈ s ∧ (m.tree_id = inst.tree_id ∧ m.lft > inst.lft ∧ m.lft < inst.rght) := by
  unfold get_descendants
  simp [List.mem_filter]

/-- C8: `ancestors(node, ascending)` is empty whenever the node's parent
reference is none, and otherwise returns exactly the rows `A` with
`A.lft < node.lft`, `A.rght > node.rght`, `A.tree_id = node.tree_id`,
sorted by `lft` ascending when `ascending` is false and by `lft` descending
(nearest parent first) when `ascending` is true. -/
theorem c8_ancestors_query (inst : Node) (asc : Bool) (s : Store) :
    (inst.parent = none → get_ancestors inst asc s = []) ∧
    (inst.parent ≠ none →
      (get_ancestors inst asc s).Perm
        (s.filter (fun m =>
          decide (m.lft < inst.lft ∧ m.rght > inst.rght ∧ m.tree_id = inst.tree_id))) ∧
      (asc = true → List.Sorted byLftDesc (get_ancestors inst asc s)) ∧
      (asc = false → List.Sorted byLftAsc (get_ancestors inst asc s))) := by
  constructor
  · exact get_ancestors_parent_none inst asc s
  · intro hp
    cases hpp : inst.parent with
    | none => exact absurd hpp hp
    | some k =>
        cases asc with
        | false =>
            refine ⟨?_, fun h => absurd h (by simp), fun _ => ?_⟩
            · unfold get_ancestors
              rw [hpp]
              exact List.perm_insertionSort byLftAsc _
            · unfold get_ancestors
              rw [hpp]
              exact List.sorted_insertionSort byLftAsc _
        | true =>
            refine ⟨?_, fun _ => ?_, fun h => absurd h (by simp)⟩
            · unfold get_ancestors
              rw [hpp]
              exact List.perm_insertionSort byLftDesc _
            · unfold get_ancestors
              rw [hpp]
              exact List.sorted_insertionSort byLftDesc _

/-- C8 witness: the ancestors of C1(2,3) in the three-node store. -/
theorem c8_ancestors_query_witness :
    (delC1.parent = none → get_ancestors delC1 false [delR, delC1, delC2] = []) ∧
    (delC1.parent ≠ none →
      (get_ancestors delC1 false [delR, delC1, delC2]).Perm
        ([delR, delC1, delC2].filter (fun m =>
          decide (m.lft < delC1.lft ∧ m.rght > delC1.rght ∧ m.tree_id = delC1.tree_id))) ∧
      (false = true → List.Sorted byLftDesc (get_ancestors delC1 false [delR, delC1, delC2])) ∧
      (false = false → List.Sorted byLftAsc (get_ancestors delC1 false [delR, delC1, delC2]))) :=
  c8_ancestors_query delC1 false [delR, delC1, delC2]

/-- C9: in a store satisfying the nested-set invariants — intervals proper
(`lft < rght`), strictly nesting whenever they overlap on the left edge,
and parent references present exactly when a strict encloser exists — the
descendants and ancestors queries are dual: A lies in `descendants(B)` iff
B lies in `ancestors(A)`, for nodes of the same tree. -/
theorem c9_ancestor_descendant_duality (s : Store) (A B : Node)
    (hA : A ∈ s) (hB : B ∈ s) (ht : A.tree_id = B.tree_id)
    (h1 : ∀ m ∈ s, m.lft < m.rght)
    (h2 : ∀ m ∈ s, ∀ n ∈ s, m.tree_id = n.tree_id →
      m.lft < n.lft → n.lft < m.rght → n.rght < m.rght)
    (h3 : ∀ m ∈ s, (∃ a ∈ s, a.tree_id = m.tree_id ∧ a.lft < m.lft ∧ m.rght < a.rght) →
      m.parent ≠ none)
    (asc : Bool) :
    A ∈ get_descendants B false s ↔ B ∈ get_ancestors A asc s := by
  constructor
  · intro h
    obtain ⟨-, htAB, hBl, hAl⟩ := (mem_get_descendants B A s).mp h
    have hAr : A.rght < B.rght := h2 B hB A hA htAB.symm hBl hAl
    have hp : A.parent ≠ none := h3 A hA ⟨B, hB, htAB.symm, hBl, hAr⟩
    exact (mem_get_ancestors A B asc s hp).mpr ⟨hB, hBl, hAr, htAB.symm⟩
  · intro h
    cases hpp : A.parent with
    | none =>
        rw [get_ancestors_parent_none A asc s hpp] at h
        exact absurd h (List.not_mem_nil B)
    | some k =>
        have hp : A.parent ≠ none := by rw [hpp]; exact Option.some_ne_none k
        obtain ⟨hBs, hBl, hBr, htB⟩ := (mem_get_ancestors A B asc s hp).mp h
        refine (mem_get_descendants B A s).mpr ⟨hA, ht, hBl, ?_⟩
        exact lt_trans (h1 A hA) hBr

/-- C9 witness: duality between C1(2,3) and R(1,6) in the three-node store,
whose rows satisfy the nested-set invariants. -/
theorem c9_ancestor_descendant_duality_witness :
    delC1 ∈ get_descendants delR false [delR, delC1, delC2] ↔
      delR ∈ get_ancestors delC1 false [delR, delC1, delC2] :=
  c9_ancestor_descendant_duality [delR, delC1, delC2] delC1 delR
    (by decide) (by decide) (by decide) (by decide) (by decide) (by decide) false

/-- `move_subtree_query` never touches rows of other trees. -/
theorem msq_row_tree_ne (nl nr lrc lb rb gs tid : Int) (m : Node)
    (h : m.tree_id ≠ tid) : move_subtree_query_row nl nr lrc lb rb gs tid m = m := by
  unfold move_subtree_query_row
  rw [if_neg h]

/-- `move_subtree_query` only rewrites `lft` and `rght`. -/
theorem msq_row_aux (nl nr lrc lb rb gs tid : Int) (m : Node) :
    (move_subtree_query_row nl nr lrc lb rb gs tid m).level = m.level ∧
    (move_subtree_query_row nl nr lrc lb rb gs tid m).pk = m.pk ∧
    (move_subtree_query_row nl nr lrc lb rb gs tid m).parent = m.parent ∧
    (move_subtree_query_row nl nr lrc lb rb gs tid m).tree_id = m.tree_id := by
  unfold move_subtree_query_row
  by_cases h : m.tree_id = tid
  · rw [if_pos h]
    exact ⟨rfl, rfl, rfl, rfl⟩
  · rw [if_neg h]
    exact ⟨rfl, rfl, rfl, rfl⟩

/-- A row with both edge values outside the update's boundary interval
keeps its `lft` and `rght` under `move_subtree_query`. -/
theorem msq_row_outside (nl nr lrc lb rb gs tid : Int) (m : Node)
    (hlb : lb ≤ nl) (hrb : nr ≤ rb)
    (hl : m.lft < lb ∨ rb < m.lft) (hr : m.rght < lb ∨ rb < m.rght) :
    (move_subtree_query_row nl nr lrc lb rb gs tid m).lft = m.lft ∧
    (move_subtree_query_row nl nr lrc lb rb gs tid m).rght = m.rght := by
  unfold move_subtree_query_row
  by_cases h : m.tree_id = tid
  · rw [if_pos h]
    dsimp only
    constructor
    · rw [if_neg (by omega), if_neg (by omega)]
    · rw [if_neg (by omega), if_neg (by omega)]
  · rw [if_neg h]
    exact ⟨rfl, rfl⟩

/-- `level_change_query` only rewrites `level`. -/
theorem lcq_row_aux (lc nl nr tid : Int) (m : Node) :
    (level_change_query_row lc nl nr tid m).lft = m.lft ∧
    (level_change_query_row lc nl nr tid m).rght = m.rght ∧
    (level_change_query_row lc nl nr tid m).pk = m.pk ∧
    (level_change_query_row lc nl nr tid m).parent = m.parent ∧
    (level_change_query_row lc nl nr tid m).tree_id = m.tree_id := by
  unfold level_change_query_row
  by_cases h : nl ≤ m.lft ∧ m.lft ≤ nr ∧ m.tree_id = tid
  · rw [if_pos h]
    exact ⟨rfl, rfl, rfl, rfl, rfl⟩
  · rw [if_neg h]
    exact ⟨rfl, rfl, rfl, rfl, rfl⟩

/-- `level_change_query` never touches rows of other trees. -/
theorem lcq_row_tree_ne (lc nl nr tid : Int) (m : Node) (h : m.tree_id ≠ tid) :
    level_change_query_row lc nl nr tid m = m := by
  unfold level_change_query_row
  rw [if_neg (fun hc => h hc.2.2)]

/-- A row whose `level` changed under `level_change_query` had its `lft`
inside the addressed range, in the addressed tree. -/
theorem lcq_row_level_ne (lc nl nr tid : Int) (m : Node)
    (h : (level_change_query_row lc nl nr tid m).level ≠ m.level) :
    nl ≤ m.lft ∧ m.lft ≤ nr ∧ m.tree_id = tid := by
  by_cases hc : nl ≤ m.lft ∧ m.lft ≤ nr ∧ m.tree_id = tid
  · exact hc
  · exfalso
    apply h
    unfold level_change_query_row
    rw [if_neg hc]

/-- Shape of the store component of `in_tree_move` once the validity check
has passed: the `move_subtree_query` with the parameters of signals.py
lines 120-136, over the store left by the optional level rewrite. -/
theorem in_tree_move_fst (inst p op : Node) (s : Store)
    (h : ¬(inst.lft ≤ p.lft ∧ p.lft ≤ inst.rght)) :
    (in_tree_move inst p op s).1 =
      move_subtree_query inst.lft inst.rght
        (p.rght - (inst.rght - inst.lft + 1) - inst.lft)
        (min inst.lft (p.rght - (inst.rght - inst.lft + 1)))
        (max inst.rght (p.rght - 1))
        (if p.rght - (inst.rght - inst.lft + 1) - inst.lft > 0
          then -(inst.rght - inst.lft + 1) else inst.rght - inst.lft + 1)
        inst.tree_id
        (if p.level ≠ op.level
          then level_change_query (inst.level - p.level - 1) inst.lft inst.rght
            inst.tree_id s
          else s) := by
  unfold in_tree_move
  rw [if_neg h]
  dsimp only
  by_cases hl : p.level ≠ op.level
  · rw [if_pos hl, if_pos hl]
  · rw [if_neg hl, if_neg hl]

/-- C10: the bulk updates of an in-tree re-parenting only modify rows of
the moving node's tree; within the tree a row whose `lft` and `rght` both
lie outside the boundary interval
`[min(old_left, new_left), max(old_right, new_right)]` keeps its `lft` and
`rght`, and a row whose `level` changed had its `lft` inside the moving
subtree's original `[old_left, old_right]`. -/
theorem c10_reparent_frame (inst p op : Node) (s : Store) :
    List.Forall₂ (fun m mNew =>
      (m.tree_id ≠ inst.tree_id → mNew = m) ∧
      ((m.lft < min inst.lft (p.rght - (inst.rght - inst.lft + 1)) ∨
        max inst.rght (p.rght - 1) < m.lft) →
       (m.rght < min inst.lft (p.rght - (inst.rght - inst.lft + 1)) ∨
        max inst.rght (p.rght - 1) < m.rght) →
       mNew.lft = m.lft ∧ mNew.rght = m.rght) ∧
      (mNew.level ≠ m.level →
        m.tree_id = inst.tree_id ∧ inst.lft ≤ m.lft ∧ m.lft ≤ inst.rght))
      s (in_tree_move inst p op s).1 := by
  by_cases h : inst.lft ≤ p.lft ∧ p.lft ≤ inst.rght
  · have h1 : (in_tree_move inst p op s).1 = s := by
      unfold in_tree_move
      rw [if_pos h]
    rw [h1]
    exact List.forall₂_same.mpr
      (fun m _ => ⟨fun _ => rfl, fun _ _ => ⟨rfl, rfl⟩, fun hlev => absurd rfl hlev⟩)
  · rw [in_tree_move_fst inst p op s h]
    by_cases hl : p.level ≠ op.level
    · rw [if_pos hl]
      unfold move_subtree_query level_change_query
      rw [List.map_map]
      apply forall2_map_self
      intro m _
      dsimp only [Function.comp]
      obtain ⟨l1, l2, l3, l4, l5⟩ :=
        lcq_row_aux (inst.level - p.level - 1) inst.lft inst.rght inst.tree_id m
      refine ⟨fun hne => ?_, fun hol hor => ?_, fun hlev => ?_⟩
      · rw [lcq_row_tree_ne _ _ _ _ m hne, msq_row_tree_ne _ _ _ _ _ _ _ m hne]
      · have hb := msq_row_outside inst.lft inst.rght
          (p.rght - (inst.rght - inst.lft + 1) - inst.lft)
          (min inst.lft (p.rght - (inst.rght - inst.lft + 1)))
          (max inst.rght (p.rght - 1))
          (if p.rght - (inst.rght - inst.lft + 1) - inst.lft > 0
            then -(inst.rght - inst.lft + 1) else inst.rght - inst.lft + 1)
          inst.tree_id
          (level_change_query_row (inst.level - p.level - 1) inst.lft inst.rght
            inst.tree_id m)
          (min_le_left _ _) (le_max_left _ _)
          (by rw [l1]; exact hol) (by rw [l2]; exact hor)
        rw [hb.1, hb.2, l1, l2]
        exact ⟨rfl, rfl⟩
      · have hlev2 : (level_change_query_row (inst.level - p.level - 1) inst.lft
            inst.rght inst.tree_id m).level ≠ m.level := by
          intro hcon
          apply hlev
          rw [(msq_row_aux _ _ _ _ _ _ _ _).1, hcon]
        obtain ⟨a1, a2, a3⟩ :=
          lcq_row_level_ne (inst.level - p.level - 1) inst.lft inst.rght inst.tree_id m hlev2
        exact ⟨a3, a1, a2⟩
    · rw [if_neg hl]
      unfold move_subtree_query
      apply forall2_map_self
      intro m _
      refine ⟨fun hne => msq_row_tree_ne _ _ _ _ _ _ _ m hne,
              fun hol hor => msq_row_outside _ _ _ _ _ _ _ m
                (min_le_left _ _) (le_max_left _ _) hol hor,
              fun hlev => absurd (msq_row_aux _ _ _ _ _ _ _ m).1 hlev⟩

/-- C10 witness: the frame property of the bulk updates for the concrete
in-tree move of X under A in the five-node store. -/
theorem c10_reparent_frame_witness :
    List.Forall₂ (fun m mNew =>
      (m.tree_id ≠ ({ demoX with parent := some 2 } : Node).tree_id → mNew = m) ∧
      ((m.lft < min ({ demoX with parent := some 2 } : Node).lft
          (demoA.rght - (({ demoX with parent := some 2 } : Node).rght -
            ({ demoX with parent := some 2 } : Node).lft + 1)) ∨
        max ({ demoX with parent := some 2 } : Node).rght (demoA.rght - 1) < m.lft) →
       (m.rght < min ({ demoX with parent := some 2 } : Node).lft
          (demoA.rght - (({ demoX with parent := some 2 } : Node).rght -
            ({ demoX with parent := some 2 } : Node).lft + 1)) ∨
        max ({ demoX with parent := some 2 } : Node).rght (demoA.rght - 1) < m.rght) →
       mNew.lft = m.lft ∧ mNew.rght = m.rght) ∧
      (mNew.level ≠ m.level →
        m.tree_id = ({ demoX with parent := some 2 } : Node).tree_id ∧
        ({ demoX with parent := some 2 } : Node).lft ≤ m.lft ∧
        m.lft ≤ ({ demoX with parent := some 2 } : Node).rght))
      demo5 (in_tree_move { demoX with parent := some 2 } demoA demoC demo5).1 :=
  c10_reparent_frame { demoX with parent := some 2 } demoA demoC demo5
